import Mathlib

/-!
Verification of the Web-CIX-Viewer core (src/parser/panelRecovery.ts and
src/parser/types.ts): a shallow embedding of the CIX format parser and the
panel-recovery engine, with theorems settling the frozen claims.

Modelling conventions:
* JavaScript numbers are embedded as `ℚ` (exact arithmetic).  The few places
  where `NaN` is observable in the source (the `flipY` guard) use the `JNum`
  type, which adds a NaN point to `ℚ`.
* JavaScript strings are embedded as `String` / `List Char`, with hand-rolled
  helpers reproducing the semantics of `trim`, `split`, `includes`,
  `startsWith`, `parseFloat`, `Number(...)` and `parseInt` as used by the
  source (decimal literals; exotic forms such as hex literals or `Infinity`
  are mapped to "not a finite number", which the source's `isNaN` guards then
  drop exactly as they drop NaN).
* The external clipper-lib boolean kernel (offset, union, difference,
  polygon tree) is not part of this repository; it is abstracted as a
  `GeomKernel` parameter.  Likewise `Math.cos`/`Math.sin` (transcendental)
  are abstracted as a `TrigTable` parameter.  All in-repository code is
  translated directly from the source.
* Mutation of the input document (`cixData.metadata.kerf_polygons`,
  `removed_polygons`) is auxiliary visualization output that no claim
  mentions; the embedding returns the recovered panel list, which is the
  function's return value in the source.
-/

/-! ## JavaScript string primitives over `List Char` -/

/-- Whitespace characters recognized by JavaScript `trim` / numeric parsing
(space, tab, newline, carriage return, vertical tab, form feed). -/
def isJsSpace (c : Char) : Bool :=
  c = ' ' ∨ c = '\t' ∨ c = '\n' ∨ c = '\r' ∨ c = Char.ofNat 11 ∨ c = Char.ofNat 12

/-- Model of JavaScript `String.prototype.trim`. -/
def jsTrim (l : List Char) : List Char :=
  ((l.dropWhile isJsSpace).reverse.dropWhile isJsSpace).reverse

/-- Model of JavaScript `String.prototype.startsWith pre`. -/
def startsWithCl (pre l : List Char) : Bool := pre.isPrefixOf l

/-- Model of JavaScript `String.prototype.includes pat`. -/
def containsCl (l pat : List Char) : Bool :=
  match l with
  | [] => pat.isEmpty
  | _ :: rest => pat.isPrefixOf l || containsCl rest pat

/-- Model of JavaScript `s.split(sep)` for a single-character separator. -/
def splitOnChar (sep : Char) : List Char → List (List Char)
  | [] => [[]]
  | c :: rest =>
    if c = sep then [] :: splitOnChar sep rest
    else
      match splitOnChar sep rest with
      | [] => [[c]]
      | grp :: gs => (c :: grp) :: gs

/-- The suffix of `l` after the first occurrence of `sep` (`none` when `sep`
does not occur); used to model `s.split(sep)[1]` for a multi-character
separator together with `upToFirst`. -/
def afterFirst (sep : List Char) : List Char → Option (List Char)
  | [] => if sep.isEmpty then some [] else none
  | c :: rest =>
    if sep.isPrefixOf (c :: rest) then some ((c :: rest).drop sep.length)
    else afterFirst sep rest

/-- The prefix of `l` before the first occurrence of `sep` (all of `l` when
`sep` does not occur). -/
def upToFirst (sep : List Char) : List Char → List Char
  | [] => []
  | c :: rest =>
    if sep.isPrefixOf (c :: rest) then []
    else c :: upToFirst sep rest

/-- Model of `line.split("VALUE=")[1]`: the text between the first and the
second occurrence of `"VALUE="` (or to the end of the line), `undefined`
(`none`) when `"VALUE="` does not occur. -/
def splitValuePart (l : List Char) : Option (List Char) :=
  (afterFirst "VALUE=".data l).map (fun r => upToFirst "VALUE=".data r)

/-- Model of JavaScript `s.split(sep, 2)` (`sep` a single character): the
part before the first separator together with the part between the first and
second separators, the latter `undefined` (`none`) when `sep` does not
occur. -/
def split2 (sep : Char) (l : List Char) : List Char × Option (List Char) :=
  match splitOnChar sep l with
  | [] => (l, none)
  | [a] => (a, none)
  | a :: b :: _ => (a, some b)

/-- Model of `value.replace(/\.+$/, "")` (strip trailing dots). -/
def stripTrailingDots (l : List Char) : List Char :=
  (l.reverse.dropWhile (· = '.')).reverse

/-- Model of `value.replace(/"/g, "")` (remove every double quote). -/
def removeQuotes (l : List Char) : List Char := l.filter (· ≠ '"')

/-- Model of `v.replace(/^"+|"+$/g, "")` (strip runs of double quotes from
both ends). -/
def stripQuoteEnds (l : List Char) : List Char :=
  ((l.dropWhile (· = '"')).reverse.dropWhile (· = '"')).reverse

/-- Model of `filename.replace(/\.[^.]+$/, "")`: drop the last dot-suffix
when it exists and is non-empty and dot-free. -/
def stripExtCl (l : List Char) : List Char :=
  let rev := l.reverse
  let suffix := rev.takeWhile (· ≠ '.')
  if suffix.length = rev.length then l
  else if suffix.isEmpty then l
  else (rev.drop (suffix.length + 1)).reverse

/-! ## JavaScript numeric parsing models

All three return `Option`: `none` models NaN (and, conservatively, the exotic
numeric shapes `Infinity`/hex/octal/binary, which no CIX field uses). -/

/-- Digit test for `'0'..'9'`. -/
def isDigitCh (c : Char) : Bool := '0' ≤ c ∧ c ≤ '9'

/-- Numeric value of a digit string (most significant first). -/
def natOfDigits (l : List Char) : ℕ :=
  l.foldl (fun a c => a * 10 + (c.toNat - '0'.toNat)) 0

/-- Parse an optional exponent part (`e`/`E`, optional sign, digits) the way
JavaScript `parseFloat` does: a malformed exponent is ignored. -/
def parseFloatExp (l : List Char) : ℤ :=
  match l with
  | c :: r =>
    if c = 'e' ∨ c = 'E' then
      let (esign, r2) : ℤ × List Char :=
        match r with
        | '+' :: r' => (1, r')
        | '-' :: r' => (-1, r')
        | _ => (1, r)
      let ed := r2.takeWhile isDigitCh
      if ed.isEmpty then 0 else esign * (natOfDigits ed : ℤ)
    else 0
  | [] => 0

/-- Model of JavaScript `Number.parseFloat` on the character list of a
string: skip leading whitespace, optional sign, then the longest decimal
prefix `digits [. digits] [exponent]`; NaN (`none`) when no digit is found. -/
def jsParseFloat (l : List Char) : Option ℚ :=
  let l1 := l.dropWhile isJsSpace
  let (sign, l2) : ℚ × List Char :=
    match l1 with
    | '+' :: r => (1, r)
    | '-' :: r => (-1, r)
    | _ => (1, l1)
  let ip := l2.takeWhile isDigitCh
  let r1 := l2.dropWhile isDigitCh
  let (fp, r2) : List Char × List Char :=
    match r1 with
    | '.' :: r => (r.takeWhile isDigitCh, r.dropWhile isDigitCh)
    | _ => ([], r1)
  if ip.isEmpty ∧ fp.isEmpty then none
  else
    let mant : ℚ := (natOfDigits ip : ℚ) + (natOfDigits fp : ℚ) / (10 : ℚ) ^ fp.length
    some (sign * mant * (10 : ℚ) ^ parseFloatExp r2)

/-- Model of JavaScript `Number(string)`: trims, maps the empty string to 0,
and otherwise requires the whole string to be a decimal literal (optional
sign, `digits [. digits]` or `. digits`, optional well-formed exponent);
anything else is NaN (`none`). -/
def jsNumber (l : List Char) : Option ℚ :=
  let t := jsTrim l
  if t.isEmpty then some 0
  else
    let (sign, l2) : ℚ × List Char :=
      match t with
      | '+' :: r => (1, r)
      | '-' :: r => (-1, r)
      | _ => (1, t)
    let ip := l2.takeWhile isDigitCh
    let r1 := l2.dropWhile isDigitCh
    let (fp, r2) : List Char × List Char :=
      match r1 with
      | '.' :: r => (r.takeWhile isDigitCh, r.dropWhile isDigitCh)
      | _ => ([], r1)
    if ip.isEmpty ∧ fp.isEmpty then none
    else
      let mant : ℚ := (natOfDigits ip : ℚ) + (natOfDigits fp : ℚ) / (10 : ℚ) ^ fp.length
      match r2 with
      | [] => some (sign * mant)
      | c :: r3 =>
        if c = 'e' ∨ c = 'E' then
          let (esign, r4) : ℤ × List Char :=
            match r3 with
            | '+' :: r' => (1, r')
            | '-' :: r' => (-1, r')
            | _ => (1, r3)
          let ed := r4.takeWhile isDigitCh
          let rest := r4.dropWhile isDigitCh
          if ed.isEmpty ∨ ¬ rest.isEmpty then none
          else some (sign * mant * (10 : ℚ) ^ (esign * (natOfDigits ed : ℤ)))
        else none

/-- Model of JavaScript `Number.parseInt(s, 10)`: skip whitespace, optional
sign, longest digit prefix; NaN (`none`) when no digit is found. -/
def jsParseInt (l : List Char) : Option ℤ :=
  let l1 := l.dropWhile isJsSpace
  let (sign, l2) : ℤ × List Char :=
    match l1 with
    | '+' :: r => (1, r)
    | '-' :: r => (-1, r)
    | _ => (1, l1)
  let ds := l2.takeWhile isDigitCh
  if ds.isEmpty then none else some (sign * (natOfDigits ds : ℤ))

/-! ## JavaScript numbers with NaN -/

/-- JavaScript number with an explicit NaN point, used where the source
guards on `Number.isNaN` in a way a claim mentions (`CixParser.flipY`). -/
inductive JNum
  | nan : JNum
  | num : ℚ → JNum
  deriving DecidableEq

/-! ## Data model (src/parser/types.ts) -/

/-- 2D point (`Vec2` in types.ts). -/
structure Vec2 where
  x : ℚ
  y : ℚ
  deriving DecidableEq

/-- Integer point of the fixed-point clipper coordinate space
(`ClipperLib.IntPoint`). -/
structure IntPoint where
  X : ℤ
  Y : ℤ
  deriving DecidableEq

/-- A clipper path (`ClipperLib.Path`). -/
abbrev IPath := List IntPoint

/-- Routing point segment kind (`RoutingPointType`). -/
inductive RoutingPointType
  | start
  | line
  | arc
  deriving DecidableEq

/-- A point of a routing path (`RoutingPoint`): position, optional Z, kind,
optional arc center. -/
structure RoutingPoint where
  x : ℚ
  y : ℚ
  z : Option ℚ := none
  ptype : RoutingPointType
  center : Option Vec2 := none
  deriving DecidableEq

/-- A routing toolpath (`RoutingPath`). -/
structure RoutingPath where
  id : Option ℚ := none
  points : List RoutingPoint
  params : List (String × String)
  max_depth : ℚ
  diameter : Option ℚ := none
  deriving DecidableEq

/-- A drill hole instance (`DrillHole`). -/
structure DrillHole where
  x : ℚ
  y : ℚ
  diameter : ℚ
  depth : ℚ
  id : Option String := none
  deriving DecidableEq

/-- Metadata of a LABEL-derived panel specification; `none` in the position
fields models an absent / non-finite entry of the untyped metadata record. -/
structure LabelMeta where
  x_position : Option ℚ := none
  y_position : Option ℚ := none
  y_position_raw : ℚ := 0
  rotation : ℚ := 0
  rotation_raw : ℚ := 0
  data : String := ""
  label_name : String := ""
  deriving DecidableEq

/-- A part label placement (`PanelSpecification`; geometry/holes/edges are
always empty in the source and are omitted). -/
structure PanelSpecification where
  id : String
  width : ℚ := 0
  height : ℚ := 0
  thickness : ℚ
  metadata : LabelMeta
  deriving DecidableEq

/-- Axis-aligned bounding box `[minX, minY, maxX, maxY]`. -/
structure Bounds4 where
  minX : ℚ
  minY : ℚ
  maxX : ℚ
  maxY : ℚ
  deriving DecidableEq

/-- A recovered panel (`RecoveredPanel`). -/
structure RecoveredPanel where
  polygon : List Vec2
  coords : Option (List Vec2) := none
  holes : Option (List (List Vec2)) := none
  drillHoles : Option (List DrillHole) := none
  area : ℚ
  width : ℚ
  height : ℚ
  bounds : Bounds4
  deriving DecidableEq

/-- Sheet metadata of a parsed document (`CixMetadata`; the recovery-output
fields `kerf_polygons` / `removed_polygons` / `recovered_panels` are
visualization side channels no claim mentions and are omitted). -/
structure CixMetadata where
  sheet_width : Option ℚ := none
  sheet_height : Option ℚ := none
  sheet_thickness : Option ℚ := none
  routing_paths : Option (List RoutingPath) := none
  drilling : Option (List DrillHole) := none
  deriving DecidableEq

/-- A parsed document (`CixData`). -/
structure CixData where
  filename : String
  sheetId : String
  panels : List PanelSpecification
  raw_content : String
  parse_errors : List String
  metadata : CixMetadata
  deriving DecidableEq

/-! ## Geometry kernel, fixed-point conversion (panelRecovery.ts 14-58) -/

/-- Fixed-point scale factor (`const SCALE = 1000`). -/
def SCALE : ℚ := 1000

/-- Model of JavaScript `Math.round` (round half towards positive
infinity). -/
def jsRound (q : ℚ) : ℤ := ⌊q + 1 / 2⌋

/-- `toPath`: real-unit points to scaled integer clipper points. -/
def toPath (pts : List Vec2) : IPath :=
  pts.map (fun p => { X := jsRound (p.x * SCALE), Y := jsRound (p.y * SCALE) })

/-- `fromPath`: scaled integer clipper points back to real units. -/
def fromPath (path : IPath) : List Vec2 :=
  path.map (fun p => { x := (p.X : ℚ) / SCALE, y := (p.Y : ℚ) / SCALE })

/-- Successor pairs of a ring: `path[i]` with `path[(i+1) % n]`. -/
def cyclicPairs (l : List Vec2) : List (Vec2 × Vec2) :=
  l.zip (l.drop 1 ++ l.take 1)

/-- `polygonArea`: absolute shoelace area. -/
def polygonArea (path : List Vec2) : ℚ :=
  |((cyclicPairs path).foldl (fun sum pq => sum + (pq.1.x * pq.2.y - pq.2.x * pq.1.y)) 0)| / 2

/-- `bounds`: axis-aligned bounding box of a non-empty point list (the
source's `Math.min(...xs)` spread over a list; recovery only calls it on
lists of three or more points, the empty case is given a dummy value). -/
def bounds (path : List Vec2) : Bounds4 :=
  match path with
  | [] => { minX := 0, minY := 0, maxX := 0, maxY := 0 }
  | p :: rest =>
    { minX := rest.foldl (fun a q => min a q.x) p.x
      minY := rest.foldl (fun a q => min a q.y) p.y
      maxX := rest.foldl (fun a q => max a q.x) p.x
      maxY := rest.foldl (fun a q => max a q.y) p.y }

/-- Abstraction of `Math.cos`/`Math.sin` sampled at `2·π·i / segs`:
`vertex segs i` stands for `(cos (2·π·i / segs), sin (2·π·i / segs))`.
The sampled values are transcendental, hence kept abstract; no claim
depends on them. -/
structure TrigTable where
  vertex : ℕ → ℕ → ℚ × ℚ

/-- `circlePath`: polygonal circle approximation (the `Number.isFinite`
guards of the source are vacuous over `ℚ`). -/
def circlePath (tc : TrigTable) (center : Vec2) (radius : ℚ) (segments : ℕ := 28) :
    List Vec2 :=
  if radius ≤ 0 then []
  else
    let segs := max 8 segments
    (List.range segs).map (fun i =>
      let cs := tc.vertex segs i
      { x := center.x + cs.1 * radius, y := center.y + cs.2 * radius })

/-! ## Point-in-polygon (panelRecovery.ts 193-217) -/

/-- Boundary tolerance `1e-9` of `pointInPolygon`. -/
def PIP_EPS : ℚ := 1 / 1000000000

/-- Degenerate-edge divisor fallback `1e-12` of `pointInPolygon`. -/
def PIP_TINY : ℚ := 1 / 1000000000000

/-- One iteration chain of the `pointInPolygon` loop with its early boundary
return; `a` is `polygon[i]`, `b` is `polygon[j]`. -/
def pipLoop (pt : Vec2) : List (Vec2 × Vec2) → Bool → Bool
  | [], inside => inside
  | (a, b) :: es, inside =>
    let cross := (pt.y - a.y) * (b.x - a.x) - (pt.x - a.x) * (b.y - a.y)
    if |cross| < PIP_EPS ∧ min a.x b.x - PIP_EPS ≤ pt.x ∧ pt.x ≤ max a.x b.x + PIP_EPS ∧
        min a.y b.y - PIP_EPS ≤ pt.y ∧ pt.y ≤ max a.y b.y + PIP_EPS then
      true
    else
      let d := b.y - a.y
      let d' := if d = 0 then PIP_TINY else d
      let intersect :=
        (decide (pt.y < a.y) ≠ decide (pt.y < b.y)) ∧
          pt.x < (b.x - a.x) * (pt.y - a.y) / d' + a.x
      pipLoop pt es (xor inside intersect)

/-- Edge list of the `pointInPolygon` loop: `polygon[i]` paired with
`polygon[j]` where `j` is the preceding index (cyclically). -/
def pipEdges (polygon : List Vec2) : List (Vec2 × Vec2) :=
  polygon.zip (polygon.drop (polygon.length - 1) ++ polygon.take (polygon.length - 1))

/-- `pointInPolygon`: ray casting with an inclusive boundary test. -/
def pointInPolygon (pt : Vec2) (polygon : List Vec2) : Bool :=
  pipLoop pt (pipEdges polygon) false

/-- `pointInPolygonWithHoles`. -/
def pointInPolygonWithHoles (pt : Vec2) (polygon : List Vec2)
    (holes : List (List Vec2) := []) : Bool :=
  pointInPolygon pt polygon &&
    holes.all (fun hole => !(!hole.isEmpty && pointInPolygon pt hole))

/-! ## CixParser (second half of panelRecovery.ts) -/

namespace CixParser

/-- `CixParser.flipY` on finite numbers: convert a top-origin Y to bottom
origin against the sheet height; identity for falsy (`0`) or non-positive
heights. -/
def flipY (value : ℚ) (sheetHeight : ℚ) : ℚ :=
  if sheetHeight = 0 then value
  else if sheetHeight ≤ 0 then value
  else sheetHeight - value

/-- `CixParser.flipY` with full JavaScript number semantics: a NaN height is
also the identity (first guard `!sheetHeight || Number.isNaN(sheetHeight)`),
and `h - NaN = NaN`. -/
def flipYJ (value : JNum) (sheetHeight : JNum) : JNum :=
  match sheetHeight with
  | .nan => value
  | .num h =>
    if h = 0 then value
    else if h ≤ 0 then value
    else
      match value with
      | .nan => .nan
      | .num v => .num (h - v)

/-- Result of the MAINDATA pass: the recognized keys that parsed to a
number. -/
structure Maindata where
  LPX : Option ℚ := none
  LPY : Option ℚ := none
  LPZ : Option ℚ := none
  deriving DecidableEq

/-- Loop of `parseMaindata`: scan for `BEGIN MAINDATA`, capture `LPX`, `LPY`,
`LPZ` assignments (trailing dots stripped, unparsable values dropped), stop
at `END MAINDATA`. -/
def maindataLoop : List (List Char) → Bool → Maindata → Maindata
  | [], _, m => m
  | raw :: rest, inMain, m =>
    let line := jsTrim raw
    if startsWithCl "BEGIN MAINDATA".data line then maindataLoop rest true m
    else if startsWithCl "END MAINDATA".data line then m
    else if ¬ inMain then maindataLoop rest inMain m
    else if containsCl line "=".data then
      let kv := split2 '=' line
      let key := jsTrim kv.1
      let value := stripTrailingDots (jsTrim (kv.2.getD []))
      if key = "LPX".data then
        match jsParseFloat value with
        | some q => maindataLoop rest inMain { m with LPX := some q }
        | none => maindataLoop rest inMain m
      else if key = "LPY".data then
        match jsParseFloat value with
        | some q => maindataLoop rest inMain { m with LPY := some q }
        | none => maindataLoop rest inMain m
      else if key = "LPZ".data then
        match jsParseFloat value with
        | some q => maindataLoop rest inMain { m with LPZ := some q }
        | none => maindataLoop rest inMain m
      else maindataLoop rest inMain m
    else maindataLoop rest inMain m

/-- `CixParser.parseMaindata`. -/
def parseMaindata (lines : List (List Char)) : Maindata :=
  maindataLoop lines false {}

/-- Overwrite-or-append update of an association list, matching assignment
to a key of a JavaScript object (lookup of the first match then yields the
latest value). -/
def updateAssoc : List (String × String) → String → String → List (String × String)
  | [], k, v => [(k, v)]
  | (k', v') :: rest, k, v =>
    if k' = k then (k, v) :: rest else (k', v') :: updateAssoc rest k v

/-- `CixParser.parseParamLine`: split a `PARAM,...` line on commas, collect
`key=value` pairs (quotes stripped from both ends of the value). -/
def parseParamLine (line : List Char) : List (String × String) :=
  ((splitOnChar ',' line).drop 1).foldl
    (fun acc part =>
      if containsCl part "=".data then
        let kv := split2 '=' part
        let k := String.mk (jsTrim kv.1)
        let v := String.mk (stripQuoteEnds (jsTrim (kv.2.getD [])))
        updateAssoc acc k v
      else acc)
    []

/-- One parsed `BEGIN MACRO … END MACRO` block: the `NAME=` tag and the
accumulated `PARAM` map. -/
structure MacroBlock where
  macroType : Option String := none
  entries : List (String × String) := []
  deriving DecidableEq

/-- Lookup of a macro parameter (a property read such as `macro.X`). -/
def MacroBlock.get (m : MacroBlock) (k : String) : Option String :=
  m.entries.lookup k

/-- Loop of `parseMacros`. -/
def macrosLoop : List (List Char) → Bool → Option MacroBlock → List MacroBlock →
    List MacroBlock
  | [], _, _, acc => acc.reverse
  | raw :: rest, inMacro, current, acc =>
    let line := jsTrim raw
    if startsWithCl "BEGIN MACRO".data line then
      macrosLoop rest true (some {}) acc
    else if startsWithCl "END MACRO".data line then
      match current with
      | some c => macrosLoop rest false none (c :: acc)
      | none => macrosLoop rest false none acc
    else
      match inMacro, current with
      | true, some c =>
        if startsWithCl "NAME=".data line then
          let v := (split2 '=' line).2.getD []
          macrosLoop rest inMacro
            (some { c with macroType := some (String.mk (jsTrim (removeQuotes v))) }) acc
        else if startsWithCl "PARAM".data line then
          let ps := parseParamLine line
          match ps.lookup "NAME", ps.lookup "VALUE" with
          | some n, some v =>
            if n = "" then macrosLoop rest inMacro current acc
            else macrosLoop rest inMacro (some { c with entries := updateAssoc c.entries n v }) acc
          | _, _ => macrosLoop rest inMacro current acc
        else macrosLoop rest inMacro current acc
      | _, _ => macrosLoop rest inMacro current acc

/-- `CixParser.parseMacros`. -/
def parseMacros (lines : List (List Char)) : List MacroBlock :=
  macrosLoop lines false none []

/-- The composite-literal test of `CixParser.parseFloat` and
`createPanelFromLabel`: contains a dot and a minus sign and more than one
dot overall (e.g. `"1550.-305.96"`). -/
def exprPattern (l : List Char) : Bool :=
  containsCl l ".".data ∧ containsCl l "-".data ∧ (splitOnChar '.' l).length > 2

/-- Model of `Number(eval(asStr))` for the composite-literal shapes the
source routes through `eval`: a chain of decimal literals joined by `-`,
folded by subtraction (a leading `-` negates).  Shapes `eval` would reject
throw in the source and are caught to 0; they map to 0 here as well. -/
def evalChainQ (l : List Char) : ℚ :=
  match splitOnChar '-' l with
  | [] => 0
  | first :: rest =>
    let start : Option ℚ := if (jsTrim first).isEmpty then some 0 else jsNumber first
    (rest.foldl
      (fun acc t =>
        match acc, (if (jsTrim t).isEmpty then none else jsNumber t) with
        | some a, some b => some (a - b)
        | _, _ => none)
      start).getD 0

/-- `CixParser.parseFloat` on a possibly-undefined string value: undefined
and null give 0; the composite-literal pattern is evaluated as a subtraction
chain; otherwise `Number.parseFloat` with NaN defaulting to 0. -/
def parseFloat (value : Option String) : ℚ :=
  match value with
  | none => 0
  | some s =>
    if exprPattern s.data then evalChainQ s.data
    else (jsParseFloat s.data).getD 0

/-- `CixParser.createPanelFromLabel` (total: the surrounding `try` never
fires in the model). -/
def createPanelFromLabel (csh : ℚ) (mb : MacroBlock) (sheetDims : Maindata) :
    Option PanelSpecification :=
  let id := (mb.get "ID").getD "Unknown"
  let x := parseFloat (mb.get "X")
  let yValue := (mb.get "Y").getD "0"
  let yRaw := parseFloat (some yValue)
  let yHasExpression := exprPattern yValue.data
  let y := if yHasExpression then yRaw else flipY yRaw csh
  let rotRaw := parseFloat (mb.get "ROT")
  some
    { id := id
      width := 0
      height := 0
      thickness := sheetDims.LPZ.getD 18
      metadata :=
        { x_position := some x
          y_position := some y
          y_position_raw := yRaw
          rotation := rotRaw
          rotation_raw := rotRaw
          data := (mb.get "DATA").getD ""
          label_name := (mb.get "NAME").getD "" } }

/-! ### Routing pass (`CixParser.parseRoutingPaths`) -/

/-- Test for the inner-loop terminator `lines[i].trim().startsWith("END
MACRO")`. -/
def isEndMacroLine (raw : List Char) : Bool :=
  startsWithCl "END MACRO".data (jsTrim raw)

/-- Lines consumed by an inner `while` of the routing pass: everything up to
(excluding) the next `END MACRO` line. -/
def spanNotEnd : List (List Char) → List (List Char)
  | [] => []
  | raw :: rest => if isEndMacroLine raw then [] else raw :: spanNotEnd rest

/-- Remainder after an inner `while` of the routing pass: the cursor stops
on the `END MACRO` line itself. -/
def dropToEnd : List (List Char) → List (List Char)
  | [] => []
  | raw :: rest => if isEndMacroLine raw then raw :: rest else dropToEnd rest

/-- One line of the `ROUT` header block: accumulate a `PARAM` pair,
capturing `DIA` as the tool diameter when it parses. -/
def routParamStep (cur : RoutingPath) (raw : List Char) : RoutingPath :=
  let paramLine := jsTrim raw
  if startsWithCl "PARAM".data paramLine then
    let ps := parseParamLine paramLine
    match ps.lookup "NAME", ps.lookup "VALUE" with
    | some n, some v =>
      if n = "" then cur
      else
        let cur' := { cur with params := updateAssoc cur.params n v }
        if n = "DIA" then
          match jsParseFloat v.data with
          | some dia => { cur' with diameter := some dia }
          | none => cur'
        else cur'
    | _, _ => cur
  else cur

/-- Fold of the `ROUT` header block over a fresh routing path. -/
def routParamsFold (taken : List (List Char)) : RoutingPath :=
  taken.foldl routParamStep
    { id := none, points := [], params := [], max_depth := 0, diameter := none }

/-- Fold of a `START_POINT` sub-block: the last `PARAM,NAME=X` /
`PARAM,NAME=Y` values (0 when absent). -/
def startPointFold (taken : List (List Char)) : ℚ × ℚ :=
  taken.foldl
    (fun xy raw =>
      let paramLine := jsTrim raw
      if containsCl paramLine "PARAM,NAME=X".data then
        (parseFloat ((splitValuePart paramLine).map String.mk), xy.2)
      else if containsCl paramLine "PARAM,NAME=Y".data then
        (xy.1, parseFloat ((splitValuePart paramLine).map String.mk))
      else xy)
    (0, 0)

/-- Fold of a `LINE_EP` / `ARC_EPTP` / `ARC_EPRA` sub-block: the `XE`, `YE`,
`ZE` values (0 when absent). -/
def lineEpFold (taken : List (List Char)) : ℚ × ℚ × ℚ :=
  taken.foldl
    (fun v raw =>
      let paramLine := jsTrim raw
      if containsCl paramLine "PARAM,NAME=XE".data then
        (parseFloat ((splitValuePart paramLine).map String.mk), v.2.1, v.2.2)
      else if containsCl paramLine "PARAM,NAME=YE".data then
        (v.1, parseFloat ((splitValuePart paramLine).map String.mk), v.2.2)
      else if containsCl paramLine "PARAM,NAME=ZE".data then
        (v.1, v.2.1, parseFloat ((splitValuePart paramLine).map String.mk))
      else v)
    (0, 0, 0)

/-- Fold of an `ARC_EPCE` sub-block: the `XE`, `YE`, `XC`, `YC`, `ZE`
values (0 when absent). -/
def arcCeFold (taken : List (List Char)) : ℚ × ℚ × ℚ × ℚ × ℚ :=
  taken.foldl
    (fun v raw =>
      let paramLine := jsTrim raw
      if containsCl paramLine "PARAM,NAME=XE".data then
        (parseFloat ((splitValuePart paramLine).map String.mk), v.2.1, v.2.2.1, v.2.2.2.1, v.2.2.2.2)
      else if containsCl paramLine "PARAM,NAME=YE".data then
        (v.1, parseFloat ((splitValuePart paramLine).map String.mk), v.2.2.1, v.2.2.2.1, v.2.2.2.2)
      else if containsCl paramLine "PARAM,NAME=XC".data then
        (v.1, v.2.1, parseFloat ((splitValuePart paramLine).map String.mk), v.2.2.2.1, v.2.2.2.2)
      else if containsCl paramLine "PARAM,NAME=YC".data then
        (v.1, v.2.1, v.2.2.1, parseFloat ((splitValuePart paramLine).map String.mk), v.2.2.2.2)
      else if containsCl paramLine "PARAM,NAME=ZE".data then
        (v.1, v.2.1, v.2.2.1, v.2.2.2.1, parseFloat ((splitValuePart paramLine).map String.mk))
      else v)
    (0, 0, 0, 0, 0)

/-- Fold of an `ENDPATH` sub-block: the last `PARAM,NAME=ID` value when
present. -/
def endpathFold (taken : List (List Char)) : Option ℚ :=
  taken.foldl
    (fun pid raw =>
      let paramLine := jsTrim raw
      if containsCl paramLine "PARAM,NAME=ID".data then
        some (parseFloat ((splitValuePart paramLine).map String.mk))
      else pid)
    none

/-- Append a `start` point to the current routing path (no depth update). -/
def pushStart (current : Option RoutingPath) (x y : ℚ) : Option RoutingPath :=
  current.map (fun c =>
    { c with points := c.points ++ [{ x := x, y := y, z := none, ptype := .start, center := none }] })

/-- Append a `line`/`arc` end point with depth tracking: a negative `ZE`
raises `max_depth` to its absolute value. -/
def pushDepthPoint (current : Option RoutingPath) (x y ze : ℚ) (k : RoutingPointType)
    (center : Option Vec2) : Option RoutingPath :=
  current.map (fun c =>
    { c with
      points := c.points ++ [{ x := x, y := y, z := some ze, ptype := k, center := center }]
      max_depth := if ze < 0 then max c.max_depth |ze| else c.max_depth })

/-- Cursor loop of `CixParser.parseRoutingPaths`.  The `fuel` argument makes
the recursion structural; each step consumes at least one line, so
`lines.length + 1` fuel reproduces the source loop exactly (running out of
fuel returns the accumulator exactly as running out of lines does). -/
def routLoop (h : ℚ) : ℕ → List (List Char) → Bool → Option RoutingPath →
    List RoutingPath → List RoutingPath
  | 0, _, _, _, acc => acc.reverse
  | _ + 1, [], _, _, acc => acc.reverse
  | fuel + 1, raw :: rest, inRout, current, acc =>
    let line := jsTrim raw
    if startsWithCl "BEGIN MACRO".data line then
      let nameLine := jsTrim (rest.head?.getD [])
      if containsCl nameLine "NAME=ROUT".data ∧ ¬ containsCl nameLine "NAME=ROUTG".data then
        routLoop h fuel (dropToEnd rest) true (some (routParamsFold (spanNotEnd rest))) acc
      else routLoop h fuel rest inRout current acc
    else if inRout ∧ containsCl line "NAME=START_POINT".data then
      let xy := startPointFold (spanNotEnd rest)
      routLoop h fuel (dropToEnd rest) inRout (pushStart current xy.1 (flipY xy.2 h)) acc
    else if inRout ∧ containsCl line "NAME=LINE_EP".data then
      let v := lineEpFold (spanNotEnd rest)
      routLoop h fuel (dropToEnd rest) inRout
        (pushDepthPoint current v.1 (flipY v.2.1 h) v.2.2 .line none) acc
    else if inRout ∧ (containsCl line "NAME=ARC_EPTP".data ∨ containsCl line "NAME=ARC_EPRA".data) then
      let v := lineEpFold (spanNotEnd rest)
      routLoop h fuel (dropToEnd rest) inRout
        (pushDepthPoint current v.1 (flipY v.2.1 h) v.2.2 .arc none) acc
    else if inRout ∧ containsCl line "NAME=ARC_EPCE".data then
      let v := arcCeFold (spanNotEnd rest)
      routLoop h fuel (dropToEnd rest) inRout
        (pushDepthPoint current v.1 (flipY v.2.1 h) v.2.2.2.2 .arc
          (some { x := v.2.2.1, y := flipY v.2.2.2.1 h })) acc
    else if inRout ∧ containsCl line "NAME=ENDPATH".data then
      let pathId := endpathFold (spanNotEnd rest)
      match current with
      | some c =>
        if c.points.isEmpty then routLoop h fuel (dropToEnd rest) false none acc
        else
          let c' := { c with id := match c.id with | some v => some v | none => pathId }
          routLoop h fuel (dropToEnd rest) false none (c' :: acc)
      | none => routLoop h fuel (dropToEnd rest) false none acc
    else routLoop h fuel rest inRout current acc

/-- `CixParser.parseRoutingPaths`. -/
def parseRoutingPaths (lines : List (List Char)) (sheetHeight : ℚ := 0) :
    List RoutingPath :=
  routLoop sheetHeight (lines.length + 1) lines false none []

/-- `CixParser.parseDrillingFromMacros`: expand each `BV` macro into its
repeat pattern (total: the per-macro `try` never fires in the model). -/
def parseDrillingFromMacros (csh : ℚ) (ms : List MacroBlock) : List DrillHole :=
  ms.flatMap (fun mb =>
    if mb.macroType = some "BV" then
      let x := parseFloat (mb.get "X")
      let y := parseFloat (mb.get "Y")
      let dia := parseFloat (some ((mb.get "DIA").getD "5"))
      let depth := parseFloat (some ((mb.get "DP").getD "0"))
      let rep := jsParseInt ((mb.get "NRP").getD "1").data
      let count : ℕ := match rep with
        | none => 0
        | some n => (max 1 n).toNat
      let dx := parseFloat (some ((mb.get "DX").getD "0"))
      let dy := parseFloat (some ((mb.get "DY").getD "0"))
      (List.range count).map (fun (i : ℕ) =>
        { x := x + dx * (i : ℚ)
          y := flipY (y + dy * (i : ℚ)) csh
          diameter := dia
          depth := depth
          id := mb.get "ID" })
    else [])

/-- Diagnostic recorded when no LABEL macro produced a panel. -/
def noLabelMsg : String := "No LABEL macros found in CIX file"

/-- `CixParser.parseContent`: the three passes over the line array plus the
LABEL-panel extraction and the zero-label diagnostic. -/
def parseContent (content : String) (cix : CixData) : CixData :=
  let lines := splitOnChar '\n' content.data
  let sheetDims := parseMaindata lines
  let sheetHeight := sheetDims.LPY.getD 0
  let csh := sheetHeight
  let md :=
    { cix.metadata with
      sheet_width := some (sheetDims.LPX.getD 0)
      sheet_height := some (sheetDims.LPY.getD 0)
      sheet_thickness := some (sheetDims.LPZ.getD 18) }
  let ms := parseMacros lines
  let labelPanels := ms.filterMap (fun mb =>
    if mb.macroType = some "LABEL" then createPanelFromLabel csh mb sheetDims else none)
  let routingPaths := parseRoutingPaths lines sheetHeight
  let drilling := parseDrillingFromMacros csh ms
  { cix with
    panels := cix.panels ++ labelPanels
    parse_errors :=
      if labelPanels.length = 0 then cix.parse_errors ++ [noLabelMsg] else cix.parse_errors
    metadata := { md with routing_paths := some routingPaths, drilling := some drilling } }

/-- `CixParser.parse`: build the empty document and run `parseContent`; the
surrounding `try`/`catch` (which would route an exception message into
`parse_errors`) is unreachable because every operation of the content pass
is total, as the per-site defaults of the model reflect. -/
def parse (content : String) (filename : String := "upload.cix") : CixData :=
  let sheetId := String.mk (stripExtCl filename.data)
  let cix : CixData :=
    { filename := filename
      sheetId := sheetId
      panels := []
      raw_content := content
      parse_errors := []
      metadata := {} }
  parseContent content cix

end CixParser

/-! ## Panel recovery engine (first half of panelRecovery.ts) -/

/-- One node of the boolean-difference output: an outer contour with its
directly-nested hole contours (result shape of `differenceWithHoles`). -/
structure PolyWithHoles where
  outer : IPath
  holes : List IPath
  deriving DecidableEq

/-- Abstraction of the external clipper-lib boolean kernel (the library is
not part of this repository; only its type declarations are).  `diffTree`
models `differenceWithHoles`' use of `PolyTree` — the duck-typed tree
traversal of the source flattens the tree into exactly this outer/holes
list — and may fail (`Except.error`), which models a thrown exception.
`clipperArea` models the optional `ClipperLib.Area` lookup. -/
structure GeomKernel where
  offsetOpen : IPath → ℚ → List IPath
  union : List IPath → List IPath
  diffTree : List IPath → List IPath → Except String (List PolyWithHoles)
  diffFlat : List IPath → List IPath → List IPath
  clipperArea : IPath → Option ℚ

/-- `offsetOpenPath`: buffer an open polyline by a radius (scaled into the
integer space, as `co.Execute(sol, radius * SCALE)` does). -/
def offsetOpenPath (K : GeomKernel) (pts : List Vec2) (radius : ℚ) : List IPath :=
  K.offsetOpen (toPath pts) (radius * SCALE)

/-- `unionPaths`: empty input short-circuits to an empty result. -/
def unionPaths (K : GeomKernel) (paths : List IPath) : List IPath :=
  if paths.isEmpty then [] else K.union paths

/-- `difference` (flat, holes discarded): empty subject short-circuits. -/
def difference (K : GeomKernel) (subject clip : List IPath) : List IPath :=
  if subject.isEmpty then [] else K.diffFlat subject clip

/-- `differenceWithHoles`: empty subject short-circuits; otherwise the
kernel's polygon-tree difference, which may fail. -/
def differenceWithHoles (K : GeomKernel) (subject clip : List IPath) :
    Except String (List PolyWithHoles) :=
  if subject.isEmpty then .ok [] else K.diffTree subject clip

/-- Options of `recoverPanelsFromRouting` with the source defaults
`{ defaultBitDiameterMm = 6, depthRatio = 0.8, minPanelArea = 1000,
kerfScale = 1 }`. -/
structure RecoverOptions where
  defaultBitDiameterMm : ℚ := 6
  depthRatio : ℚ := 4 / 5
  minPanelArea : ℚ := 1000
  kerfScale : ℚ := 1
  deriving DecidableEq

/-- The `tryParse` helper of `pathDepth`: `Number(v)` of an optional raw
parameter, absolute value when finite, 0 otherwise. -/
def tryParse (v : Option String) : ℚ :=
  match v with
  | none => 0
  | some s =>
    match jsNumber s.data with
    | some n => |n|
    | none => 0

/-- `pathDepth`: the maximum of `|max_depth|` and the absolute values of the
`PR`, `DP`, `ZE`, `Z` parameters when they parse to finite numbers. -/
def pathDepth (path : RoutingPath) : ℚ :=
  let d0 := |path.max_depth|
  let d1 := max d0 (tryParse (path.params.lookup "PR"))
  let d2 := max d1 (tryParse (path.params.lookup "DP"))
  let d3 := max d2 (tryParse (path.params.lookup "ZE"))
  max d3 (tryParse (path.params.lookup "Z"))

/-- `isThroughCut`: depth at least `sheetThickness × depthRatio`; with a
non-positive sheet thickness, depth strictly positive. -/
def isThroughCut (path : RoutingPath) (sheetThickness depthRatio : ℚ) : Bool :=
  let depth := pathDepth path
  if sheetThickness ≤ 0 then decide (0 < depth)
  else decide (sheetThickness * depthRatio ≤ depth)

/-! ### Drill-hole attachment (panelRecovery.ts 219-247) -/

/-- Per-panel loop state of `attachDrillHolesToPanels`: the accumulated hole
rings, the claimed drill holes, the running net area. -/
structure AttachState where
  polyHoles : List (List Vec2)
  assigned : List DrillHole
  area : ℚ
  deriving DecidableEq

/-- One drill hole against one panel: skip non-positive radii (the
`Number.isFinite` center guards are vacuous over `ℚ`) and centers outside
the outer ring; otherwise add the 40-segment circle, claim the hole, and
subtract the circle's area. -/
def attachStep (tc : TrigTable) (panel : RecoveredPanel) (st : AttachState)
    (hole : DrillHole) : AttachState :=
  let radius := hole.diameter / 2
  if radius ≤ 0 then st
  else
    let center : Vec2 := { x := hole.x, y := hole.y }
    if ¬ pointInPolygon center panel.polygon then st
    else
      let circle := circlePath tc center radius 40
      if 3 ≤ circle.length then
        { polyHoles := st.polyHoles ++ [circle]
          assigned := st.assigned ++ [hole]
          area := st.area - |polygonArea circle| }
      else st

/-- The body of `attachDrillHolesToPanels` for one panel. -/
def attachOne (tc : TrigTable) (drillHoles : List DrillHole) (panel : RecoveredPanel) :
    RecoveredPanel :=
  let st0 : AttachState :=
    { polyHoles := panel.holes.getD [], assigned := [], area := panel.area }
  let st := drillHoles.foldl (attachStep tc panel) st0
  { panel with
    holes := if st.polyHoles.isEmpty then panel.holes else some st.polyHoles
    drillHoles := if st.assigned.isEmpty then panel.drillHoles else some st.assigned
    area := max st.area 0 }

/-- `attachDrillHolesToPanels`: no-op on an empty drill list, otherwise each
panel is processed independently against the full drill list. -/
def attachDrillHolesToPanels (tc : TrigTable) (panels : List RecoveredPanel)
    (drillHoles : List DrillHole) : List RecoveredPanel :=
  if drillHoles.isEmpty then panels else panels.map (attachOne tc drillHoles)

/-! ### recoverPanelsFromRouting (panelRecovery.ts 249-456) -/

/-- Kerf polygons of one routing path (`addKerfsForPaths` on a singleton):
degenerate point lists and non-positive radii produce nothing. -/
def kerfsForPath (K : GeomKernel) (opts : RecoverOptions) (path : RoutingPath) :
    List IPath :=
  let pts := path.points.map (fun p => ({ x := p.x, y := p.y } : Vec2))
  if pts.length < 2 then []
  else
    let radius := (path.diameter.getD opts.defaultBitDiameterMm) / 2 * opts.kerfScale
    if radius ≤ 0 then []
    else offsetOpenPath K pts radius

/-- The kerf-collection stage: kerfs of the through-cut paths, falling back
to kerfs of every routing path when that produced nothing and routing paths
exist at all. -/
def kerfsUsed (K : GeomKernel) (opts : RecoverOptions) (sheetT : ℚ)
    (routing : List RoutingPath) : List IPath :=
  let kerfs :=
    (routing.filter (fun p => isThroughCut p sheetT opts.depthRatio)).flatMap
      (kerfsForPath K opts)
  if kerfs.isEmpty ∧ ¬ routing.isEmpty then routing.flatMap (kerfsForPath K opts)
  else kerfs

/-- The sheet outline rectangle `[0,0]–[w,h]` in real units. -/
def sheetRect (w h : ℚ) : List Vec2 :=
  [{ x := 0, y := 0 }, { x := w, y := 0 }, { x := w, y := h }, { x := 0, y := h }]

/-- The single whole-sheet fallback panel (`sheetPanel` of the source; its
polygon is the sheet rectangle after the fixed-point round trip). -/
def wholeSheetPanel (w h : ℚ) : RecoveredPanel :=
  let sheetPoly := fromPath (toPath (sheetRect w h))
  { polygon := sheetPoly
    coords := some sheetPoly
    holes := some []
    drillHoles := none
    area := w * h
    width := w
    height := h
    bounds := { minX := 0, minY := 0, maxX := w, maxY := h } }

/-- The subtract stage with its fallback chain: the hole-aware difference,
then — when it yields nothing or throws — the flat difference with empty
hole lists (a thrown error's message is additionally pushed onto the
document's `parse_errors`, a side channel no claim mentions). -/
def remainingPieces (K : GeomKernel) (sheetPath kerfUnion : List IPath) :
    List PolyWithHoles :=
  match differenceWithHoles K sheetPath kerfUnion with
  | .ok r =>
    if r.isEmpty then (difference K sheetPath kerfUnion).map (fun p => { outer := p, holes := [] })
    else r
  | .error _ => (difference K sheetPath kerfUnion).map (fun p => { outer := p, holes := [] })

/-- Net area of a remaining piece: the clipper integer area when available
(`|Area| / SCALE²`), the shoelace area of the outer ring otherwise, minus
the absolute hole areas. -/
def pieceArea (K : GeomKernel) (piece : PolyWithHoles) : ℚ :=
  let area0 :=
    match K.clipperArea piece.outer with
    | some a => |a| / (SCALE * SCALE)
    | none => polygonArea (fromPath piece.outer)
  (piece.holes.map fromPath).foldl (fun acc h => acc - |polygonArea h|) area0

/-- One remaining piece to a recovered panel: degenerate outers and pieces
whose net area (`pieceArea`) is below `minPanelArea` are dropped. -/
def pieceToPanel (K : GeomKernel) (opts : RecoverOptions) (piece : PolyWithHoles) :
    Option RecoveredPanel :=
  let outer := fromPath piece.outer
  let holes := piece.holes.map fromPath
  if outer.length < 3 then none
  else
    let area := pieceArea K piece
    if area < opts.minPanelArea then none
    else
      let b := bounds outer
      some
        { polygon := outer
          coords := some outer
          holes := some holes
          drillHoles := none
          area := area
          width := b.maxX - b.minX
          height := b.maxY - b.minY
          bounds := b }

/-- A label point extracted from the document's label placements
(`labelPoints` of the source): panels whose metadata has finite `x_position`
and `y_position`. -/
structure LabelPoint where
  id : String
  x : ℚ
  y : ℚ
  deriving DecidableEq

/-- The label points of a document. -/
def labelPointsOf (cix : CixData) : List LabelPoint :=
  cix.panels.filterMap (fun p =>
    match p.metadata.x_position, p.metadata.y_position with
    | some x, some y => some { id := p.id, x := x, y := y }
    | _, _ => none)

/-- The surviving pieces of the main path of `recoverPanelsFromRouting`
before drill attachment: guards, kerf collection, union, difference chain,
degenerate/area filtering (empty when a guard short-circuits). -/
def recoverCandidates (K : GeomKernel) (opts : RecoverOptions) (cix : CixData) :
    List RecoveredPanel :=
  let sheetW := cix.metadata.sheet_width.getD 0
  let sheetH := cix.metadata.sheet_height.getD 0
  let sheetT := cix.metadata.sheet_thickness.getD 0
  if sheetW ≤ 0 ∨ sheetH ≤ 0 then []
  else
    let kerfs := kerfsUsed K opts sheetT (cix.metadata.routing_paths.getD [])
    if kerfs.isEmpty then []
    else
      let kerfUnion := unionPaths K kerfs
      (remainingPieces K [toPath (sheetRect sheetW sheetH)] kerfUnion).filterMap
        (pieceToPanel K opts)

/-- `recoverPanelsFromRouting`: the full pipeline.  The auxiliary metadata
writes (`kerf_polygons`, `removed_polygons`) are visualization side channels
no claim mentions and are not part of the returned value. -/
def recoverPanelsFromRouting (K : GeomKernel) (tc : TrigTable) (cixData : CixData)
    (opts : RecoverOptions := {}) : List RecoveredPanel :=
  let sheetW := cixData.metadata.sheet_width.getD 0
  let sheetH := cixData.metadata.sheet_height.getD 0
  let sheetT := cixData.metadata.sheet_thickness.getD 0
  if sheetW ≤ 0 ∨ sheetH ≤ 0 then []
  else
    let routing := cixData.metadata.routing_paths.getD []
    let drills := cixData.metadata.drilling.getD []
    if (kerfsUsed K opts sheetT routing).isEmpty then
      attachDrillHolesToPanels tc [wholeSheetPanel sheetW sheetH] drills
    else
      let panels := attachDrillHolesToPanels tc (recoverCandidates K opts cixData) drills
      let labelPoints := labelPointsOf cixData
      if panels.isEmpty then
        attachDrillHolesToPanels tc [wholeSheetPanel sheetW sheetH] drills
      else
        let labeledPanels :=
          if labelPoints.isEmpty then []
          else
            panels.filter (fun panel =>
              labelPoints.any (fun pt =>
                pointInPolygonWithHoles { x := pt.x, y := pt.y } panel.polygon
                  (panel.holes.getD [])))
        if labeledPanels.isEmpty then panels else labeledPanels

/-! ## Witness instances -/

/-- Simple concrete kernel instance for witnesses: offsets echo the path,
the union is the identity, the tree difference returns the subject outers,
the integer area is unavailable. -/
def witnessKernel : GeomKernel where
  offsetOpen p _ := [p]
  union ps := ps
  diffTree s _ := .ok (s.map (fun o => { outer := o, holes := [] }))
  diffFlat s _ := s
  clipperArea _ := some 10000000000

/-- Degenerate trig table for witnesses (`cos = 1`, `sin = 0` everywhere). -/
def witnessTrig : TrigTable where
  vertex _ _ := (1, 0)

/-- Concrete document for recovery witnesses: a `100 × 100 × 18` sheet, one
through-cut routing path, one drill hole, one label placement. -/
def witnessDoc : CixData where
  filename := "w.cix"
  sheetId := "w"
  panels :=
    [{ id := "P1", thickness := 18,
       metadata := { x_position := some 10, y_position := some 10 } }]
  raw_content := ""
  parse_errors := []
  metadata :=
    { sheet_width := some 100
      sheet_height := some 100
      sheet_thickness := some 18
      routing_paths := some
        [{ points :=
             [{ x := 0, y := 0, ptype := .start },
              { x := 50, y := 0, z := some (-18), ptype := .line }]
           params := []
           max_depth := 18
           diameter := some 6 }]
      drilling := some [{ x := 50, y := 50, diameter := 10, depth := 18 }] }

/-! ## Helper lemmas about drill attachment -/

/-- The attachment condition of one drill hole against one panel: positive
radius, center inside the outer ring, circle with at least three vertices
(the last is automatic for a positive radius). -/
def drillQualifies (tc : TrigTable) (panel : RecoveredPanel) (hole : DrillHole) : Bool :=
  !decide (hole.diameter / 2 ≤ 0) &&
    pointInPolygon { x := hole.x, y := hole.y } panel.polygon &&
    decide (3 ≤ (circlePath tc { x := hole.x, y := hole.y } (hole.diameter / 2) 40).length)

theorem attachStep_assigned (tc : TrigTable) (panel : RecoveredPanel) (st : AttachState)
    (hole : DrillHole) :
    (attachStep tc panel st hole).assigned =
      if drillQualifies tc panel hole then st.assigned ++ [hole] else st.assigned := by
  unfold attachStep drillQualifies
  by_cases h1 : hole.diameter / 2 ≤ 0
  · simp [h1]
  · by_cases h2 : pointInPolygon { x := hole.x, y := hole.y } panel.polygon
    · by_cases h3 : 3 ≤ (circlePath tc { x := hole.x, y := hole.y } (hole.diameter / 2) 40).length
      · simp [h1, h2, h3]
      · simp [h1, h2, h3]
    · simp [h1, h2]

theorem attach_foldl_assigned (tc : TrigTable) (panel : RecoveredPanel) :
    ∀ (drills : List DrillHole) (st : AttachState),
      (drills.foldl (attachStep tc panel) st).assigned =
        st.assigned ++ drills.filter (drillQualifies tc panel) := by
  intro drills
  induction drills with
  | nil => intro st; simp
  | cons d ds ih =>
    intro st
    rw [List.foldl_cons, ih, List.filter_cons]
    by_cases h : drillQualifies tc panel d
    · have := attachStep_assigned tc panel st d
      rw [if_pos h] at this
      simp [this, h]
    · have := attachStep_assigned tc panel st d
      rw [if_neg h] at this
      simp [this, h]

theorem attachOne_drillHoles (tc : TrigTable) (drills : List DrillHole)
    (panel : RecoveredPanel) (hnone : panel.drillHoles = none) :
    (attachOne tc drills panel).drillHoles.getD [] =
      drills.filter (drillQualifies tc panel) := by
  simp only [attachOne, attach_foldl_assigned, List.nil_append]
  by_cases h : (drills.filter (drillQualifies tc panel)).isEmpty
  · rw [List.isEmpty_iff] at h
    simp [h, hnone]
  · simp [h]

theorem attachOne_polygon (tc : TrigTable) (drills : List DrillHole)
    (panel : RecoveredPanel) : (attachOne tc drills panel).polygon = panel.polygon := rfl

theorem attachOne_area_nonneg (tc : TrigTable) (drills : List DrillHole)
    (panel : RecoveredPanel) : 0 ≤ (attachOne tc drills panel).area :=
  le_max_right _ 0

/-- Membership characterization of a drill hole claimed by a panel whose
`drillHoles` field starts unset. -/
theorem attachOne_claimed_iff (tc : TrigTable) (drills : List DrillHole)
    (panel : RecoveredPanel) (hnone : panel.drillHoles = none) (d : DrillHole) :
    d ∈ (attachOne tc drills panel).drillHoles.getD [] ↔
      d ∈ drills ∧ drillQualifies tc panel d = true := by
  rw [attachOne_drillHoles tc drills panel hnone, List.mem_filter]

theorem drillQualifies_pip (tc : TrigTable) (panel : RecoveredPanel) (d : DrillHole)
    (h : drillQualifies tc panel d = true) :
    pointInPolygon { x := d.x, y := d.y } panel.polygon = true := by
  unfold drillQualifies at h
  simp only [Bool.and_eq_true] at h
  exact h.1.2

/-- Shape of a surviving piece's panel: no drill claims yet, area at least
`minPanelArea`, polygon the converted outer ring. -/
theorem pieceToPanel_some (K : GeomKernel) (opts : RecoverOptions) (piece : PolyWithHoles)
    (p : RecoveredPanel) (h : pieceToPanel K opts piece = some p) :
    p.drillHoles = none ∧ opts.minPanelArea ≤ p.area := by
  simp only [pieceToPanel] at h
  split at h
  · simp at h
  · split at h
    · simp at h
    · rename_i harea
      obtain rfl := Option.some.inj h
      exact ⟨rfl, le_of_not_lt harea⟩

/-- Panels produced by the piece filter never carry a `drillHoles` list. -/
theorem recoverCandidates_drillHoles_none (K : GeomKernel) (opts : RecoverOptions)
    (cix : CixData) : ∀ p ∈ recoverCandidates K opts cix, p.drillHoles = none := by
  intro p hp
  simp only [recoverCandidates] at hp
  split at hp
  · simp at hp
  · split at hp
    · simp at hp
    · rw [List.mem_filterMap] at hp
      obtain ⟨piece, _, hpiece⟩ := hp
      exact (pieceToPanel_some K opts piece p hpiece).1

/-- Panels produced by the piece filter have area at least `minPanelArea`. -/
theorem recoverCandidates_area_ge (K : GeomKernel) (opts : RecoverOptions)
    (cix : CixData) : ∀ p ∈ recoverCandidates K opts cix, opts.minPanelArea ≤ p.area := by
  intro p hp
  simp only [recoverCandidates] at hp
  split at hp
  · simp at hp
  · split at hp
    · simp at hp
    · rw [List.mem_filterMap] at hp
      obtain ⟨piece, _, hpiece⟩ := hp
      exact (pieceToPanel_some K opts piece p hpiece).2

/-- Membership in an attachment result: either the drill list was empty and
the panel passed through, or it is `attachOne` of an input panel. -/
theorem mem_attach_cases (tc : TrigTable) (panels : List RecoveredPanel)
    (drills : List DrillHole) (p : RecoveredPanel)
    (hp : p ∈ attachDrillHolesToPanels tc panels drills) :
    p ∈ panels ∨ ∃ q ∈ panels, p = attachOne tc drills q := by
  unfold attachDrillHolesToPanels at hp
  split at hp
  · exact Or.inl hp
  · rw [List.mem_map] at hp
    obtain ⟨q, hq, rfl⟩ := hp
    exact Or.inr ⟨q, hq, rfl⟩

/-- Claim C8: applying the Y-flip twice with the same positive sheet height
returns the original value (also when the value itself is NaN); flipping
with a zero, negative, or NaN sheet height is the identity; and on finite
inputs the NaN-aware flip agrees with the parser's `flipY`. -/
theorem claim_C8_flipY_involution :
    (∀ (v : JNum) (h : ℚ), 0 < h →
      CixParser.flipYJ (CixParser.flipYJ v (.num h)) (.num h) = v) ∧
    (∀ v : JNum, CixParser.flipYJ v .nan = v) ∧
    (∀ (v : JNum) (h : ℚ), h ≤ 0 → CixParser.flipYJ v (.num h) = v) ∧
    (∀ y h : ℚ, CixParser.flipYJ (.num y) (.num h) = .num (CixParser.flipY y h)) := by
  refine ⟨?_, ?_, ?_, ?_⟩
  · intro v h hpos
    have h0 : ¬ h = 0 := ne_of_gt hpos
    have h1 : ¬ h ≤ 0 := not_le.mpr hpos
    cases v with
    | nan => simp [CixParser.flipYJ, h0, h1]
    | num y => simp [CixParser.flipYJ, h0, h1]
  · intro v; rfl
  · intro v h hle
    by_cases h0 : h = 0
    · simp [CixParser.flipYJ, h0]
    · simp [CixParser.flipYJ, h0, hle]
  · intro y h
    by_cases h0 : h = 0
    · simp [CixParser.flipYJ, CixParser.flipY, h0]
    · by_cases h1 : h ≤ 0
      · simp [CixParser.flipYJ, CixParser.flipY, h0, h1]
      · simp [CixParser.flipYJ, CixParser.flipY, h0, h1]

/-- Witness for C8 at `y = 200`, `h = 600`. -/
theorem claim_C8_witness :
    0 < (600 : ℚ) ∧
      CixParser.flipYJ (CixParser.flipYJ (.num 200) (.num 600)) (.num 600) = .num 200 :=
  ⟨by norm_num, claim_C8_flipY_involution.1 (.num 200) 600 (by norm_num)⟩

/-- Claim C2 (amended: the depth-positive exception applies to every
non-positive sheet thickness, not only zero-or-unknown): a path is a
through-cut iff its derived depth reaches `sheetThickness × depthRatio`,
except that with non-positive sheet thickness it is a through-cut iff its
depth is positive; and when no routing path qualifies as a through-cut but
the routing list is non-empty, the kerf stage uses every routing path. -/
theorem claim_C2_throughcut :
    (∀ (p : RoutingPath) (T r : ℚ),
      isThroughCut p T r = true ↔
        (if T ≤ 0 then 0 < pathDepth p else T * r ≤ pathDepth p)) ∧
    (∀ (K : GeomKernel) (opts : RecoverOptions) (T : ℚ) (routing : List RoutingPath),
      routing ≠ [] →
      (∀ p ∈ routing, isThroughCut p T opts.depthRatio = false) →
      kerfsUsed K opts T routing = routing.flatMap (kerfsForPath K opts)) := by
  constructor
  · intro p T r
    unfold isThroughCut
    by_cases hT : T ≤ 0
    · simp [hT]
    · simp [hT]
  · intro K opts T routing hne hall
    unfold kerfsUsed
    have hfil : routing.filter (fun p => isThroughCut p T opts.depthRatio) = [] := by
      rw [List.filter_eq_nil_iff]
      intro a ha
      simp [hall a ha]
    rw [hfil]
    simp [hne]

/-- A path with no points, no parameters and zero recorded depth. -/
def c2Path : RoutingPath := { points := [], params := [], max_depth := 0 }

/-- Counterexample to C2 as stated: with the (reachable) negative sheet
thickness `-1`, which is neither zero nor unknown, the claim's main rule
asserts through-cut iff `depth ≥ -1 × 0.8`; the zero-depth path satisfies
that bound yet the code classifies it as not a through-cut. -/
theorem claim_C2_counterexample :
    ¬ (isThroughCut c2Path (-1) (4 / 5) = true ↔ (-1 : ℚ) * (4 / 5) ≤ pathDepth c2Path) := by
  with_unfolding_all decide

/-- Witness for C2 at a one-element routing list whose only path has depth
0 against sheet thickness 18 (nothing qualifies, so every path is used). -/
theorem claim_C2_witness :
    ([c2Path] ≠ ([] : List RoutingPath)) ∧
    (∀ p ∈ [c2Path], isThroughCut p 18 ({} : RecoverOptions).depthRatio = false) ∧
    kerfsUsed witnessKernel {} 18 [c2Path] = [c2Path].flatMap (kerfsForPath witnessKernel {}) :=
  ⟨by simp, by with_unfolding_all decide,
    claim_C2_throughcut.2 witnessKernel {} 18 [c2Path] (by simp)
      (by with_unfolding_all decide)⟩

/-- Claim C9: shoelace areas are non-negative for every ring, and (for a
non-negative `minPanelArea` configuration, which the default 1000 is) every
panel returned by recovery has a non-negative net area. -/
theorem claim_C9_area_nonneg :
    (∀ ring : List Vec2, 0 ≤ polygonArea ring) ∧
    (∀ (K : GeomKernel) (tc : TrigTable) (cix : CixData) (opts : RecoverOptions),
      0 ≤ opts.minPanelArea →
      ∀ p ∈ recoverPanelsFromRouting K tc cix opts, 0 ≤ p.area) := by
  constructor
  · intro ring
    unfold polygonArea
    positivity
  · intro K tc cix opts hmin p hp
    simp only [recoverPanelsFromRouting] at hp
    split at hp
    · simp at hp
    · rename_i hguard
      have hWH : 0 ≤ cix.metadata.sheet_width.getD 0 * cix.metadata.sheet_height.getD 0 := by
        push_neg at hguard
        exact mul_nonneg (le_of_lt hguard.1) (le_of_lt hguard.2)
      have hsheet : ∀ q ∈ attachDrillHolesToPanels tc
          [wholeSheetPanel (cix.metadata.sheet_width.getD 0) (cix.metadata.sheet_height.getD 0)]
          (cix.metadata.drilling.getD []), 0 ≤ q.area := by
        intro q hq
        rcases mem_attach_cases _ _ _ _ hq with hq' | ⟨r, _, rfl⟩
        · rw [List.mem_singleton] at hq'
          rw [hq']
          exact hWH
        · exact attachOne_area_nonneg _ _ _
      have hmain : ∀ q ∈ attachDrillHolesToPanels tc (recoverCandidates K opts cix)
          (cix.metadata.drilling.getD []), 0 ≤ q.area := by
        intro q hq
        rcases mem_attach_cases _ _ _ _ hq with hq' | ⟨r, _, rfl⟩
        · exact le_trans hmin (recoverCandidates_area_ge K opts cix q hq')
        · exact attachOne_area_nonneg _ _ _
      split at hp
      · exact hsheet p hp
      · split at hp
        · exact hsheet p hp
        · by_cases hlp : (labelPointsOf cix).isEmpty
          · simp only [hlp, if_true, List.isEmpty_nil, List.not_mem_nil] at hp
            exact hmain p hp
          · rw [Bool.not_eq_true] at hlp
            simp only [hlp, Bool.false_eq_true, if_false] at hp
            split at hp
            · exact hmain p hp
            · exact hmain p (List.mem_of_mem_filter hp)

/-- Witness for C9 with the default configuration (`minPanelArea = 1000`). -/
theorem claim_C9_witness :
    0 ≤ ({} : RecoverOptions).minPanelArea ∧
      ∀ p ∈ recoverPanelsFromRouting witnessKernel witnessTrig
          { filename := "w.cix", sheetId := "w", panels := [], raw_content := "",
            parse_errors := [], metadata := {} } {},
        0 ≤ p.area :=
  ⟨by norm_num [RecoverOptions.minPanelArea], by
    exact claim_C9_area_nonneg.2 witnessKernel witnessTrig _ {}
      (by norm_num [RecoverOptions.minPanelArea])⟩

/-- An emptiness test via `length = 0` equals one via `isEmpty`. -/
theorem length_zero_ite {x y : List String} (L : List PanelSpecification) :
    (if L.length = 0 then x else y) = (if L.isEmpty then x else y) := by
  cases L <;> simp

/-- Claim C4: `parse` always returns a document (the embedding is total —
every operation of the content pass is total, so the surrounding
`try`/`catch` that would append an exception message to `parse_errors` is
never reached); the document keeps the input text and filename, and the
diagnostics list is exactly the no-LABEL diagnostic when no label panel was
produced and empty otherwise. -/
theorem claim_C4_parse_contract (content filename : String) :
    (CixParser.parse content filename).raw_content = content ∧
    (CixParser.parse content filename).filename = filename ∧
    (CixParser.parse content filename).sheetId = String.mk (stripExtCl filename.data) ∧
    (CixParser.parse content filename).parse_errors =
      (if (CixParser.parse content filename).panels.isEmpty then [CixParser.noLabelMsg]
       else []) := by
  refine ⟨rfl, rfl, rfl, ?_⟩
  simp only [CixParser.parse, CixParser.parseContent, List.nil_append]
  rw [length_zero_ite]

/-- The MAINDATA scan returns its accumulator untouched when no line opens
a MAINDATA block and scanning has not begun. -/
theorem maindataLoop_no_begin (lines : List (List Char)) (m : CixParser.Maindata)
    (h : ∀ l ∈ lines, startsWithCl "BEGIN MAINDATA".data (jsTrim l) = false) :
    CixParser.maindataLoop lines false m = m := by
  induction lines with
  | nil => rfl
  | cons raw rest ih =>
    simp only [CixParser.maindataLoop]
    rw [h raw (List.mem_cons_self raw rest)]
    simp only [Bool.false_eq_true, if_false]
    split
    · rfl
    · rw [if_pos not_false]
      exact ih (fun l hl => h l (List.mem_cons_of_mem raw hl))

/-- Claim C10: `parse` always populates the sheet metadata (width and
height default to the missing-key value 0, thickness to 18), and a document
whose text has no `BEGIN MAINDATA` line gets exactly the defaults, on which
recovery short-circuits to the empty panel list. -/
theorem claim_C10_sheet_defaults :
    (∀ content filename : String,
      (CixParser.parse content filename).metadata.sheet_width =
        some ((CixParser.parseMaindata (splitOnChar '\n' content.data)).LPX.getD 0) ∧
      (CixParser.parse content filename).metadata.sheet_height =
        some ((CixParser.parseMaindata (splitOnChar '\n' content.data)).LPY.getD 0) ∧
      (CixParser.parse content filename).metadata.sheet_thickness =
        some ((CixParser.parseMaindata (splitOnChar '\n' content.data)).LPZ.getD 18)) ∧
    (∀ content filename : String,
      (∀ l ∈ splitOnChar '\n' content.data,
        startsWithCl "BEGIN MAINDATA".data (jsTrim l) = false) →
      (CixParser.parse content filename).metadata.sheet_width = some 0 ∧
      (CixParser.parse content filename).metadata.sheet_height = some 0 ∧
      (CixParser.parse content filename).metadata.sheet_thickness = some 18 ∧
      ∀ (K : GeomKernel) (tc : TrigTable) (opts : RecoverOptions),
        recoverPanelsFromRouting K tc (CixParser.parse content filename) opts = []) := by
  constructor
  · intro content filename
    exact ⟨rfl, rfl, rfl⟩
  · intro content filename h
    have hmd : CixParser.parseMaindata (splitOnChar '\n' content.data) = {} :=
      maindataLoop_no_begin _ _ h
    have hw : (CixParser.parse content filename).metadata.sheet_width = some 0 := by
      show some ((CixParser.parseMaindata (splitOnChar '\n' content.data)).LPX.getD 0) = some 0
      rw [hmd]
      rfl
    have hh : (CixParser.parse content filename).metadata.sheet_height = some 0 := by
      show some ((CixParser.parseMaindata (splitOnChar '\n' content.data)).LPY.getD 0) = some 0
      rw [hmd]
      rfl
    have ht : (CixParser.parse content filename).metadata.sheet_thickness = some 18 := by
      show some ((CixParser.parseMaindata (splitOnChar '\n' content.data)).LPZ.getD 18) = some 18
      rw [hmd]
      rfl
    refine ⟨hw, hh, ht, ?_⟩
    intro K tc opts
    simp only [recoverPanelsFromRouting, hw, Option.getD_some]
    rw [if_pos (Or.inl le_rfl)]

/-- Witness for C10 on a document with no MAINDATA block. -/
theorem claim_C10_witness :
    (∀ l ∈ splitOnChar '\n' ("hello" ++ "\n" ++ "world").data,
      startsWithCl "BEGIN MAINDATA".data (jsTrim l) = false) ∧
    recoverPanelsFromRouting witnessKernel witnessTrig
      (CixParser.parse ("hello" ++ "\n" ++ "world") "w.cix") {} = [] :=
  ⟨by with_unfolding_all decide,
    (claim_C10_sheet_defaults.2 ("hello" ++ "\n" ++ "world") "w.cix"
      (by with_unfolding_all decide)).2.2.2 witnessKernel witnessTrig {}⟩

/-- Claim C7: a `BV` macro whose repeat count parses to `N ≥ 1` expands into
exactly `N` drill-hole records at `(x + dx·i, y + dy·i)` for `i ∈ [0, N)`,
each with its Y coordinate independently flipped against the current sheet
height. -/
theorem claim_C7_drill_expansion (csh : ℚ) (mb : CixParser.MacroBlock) (N : ℤ)
    (hbv : mb.macroType = some "BV")
    (hN : jsParseInt ((mb.get "NRP").getD "1").data = some N)
    (hN1 : 1 ≤ N) :
    CixParser.parseDrillingFromMacros csh [mb] =
      (List.range N.toNat).map (fun (i : ℕ) =>
        { x := CixParser.parseFloat (mb.get "X") +
            CixParser.parseFloat (some ((mb.get "DX").getD "0")) * (i : ℚ)
          y := CixParser.flipY
            (CixParser.parseFloat (mb.get "Y") +
              CixParser.parseFloat (some ((mb.get "DY").getD "0")) * (i : ℚ)) csh
          diameter := CixParser.parseFloat (some ((mb.get "DIA").getD "5"))
          depth := CixParser.parseFloat (some ((mb.get "DP").getD "0"))
          id := mb.get "ID" }) ∧
    (CixParser.parseDrillingFromMacros csh [mb]).length = N.toNat := by
  have hmax : max 1 N = N := max_eq_right hN1
  have hstep : CixParser.parseDrillingFromMacros csh [mb] =
      (List.range N.toNat).map (fun (i : ℕ) =>
        { x := CixParser.parseFloat (mb.get "X") +
            CixParser.parseFloat (some ((mb.get "DX").getD "0")) * (i : ℚ)
          y := CixParser.flipY
            (CixParser.parseFloat (mb.get "Y") +
              CixParser.parseFloat (some ((mb.get "DY").getD "0")) * (i : ℚ)) csh
          diameter := CixParser.parseFloat (some ((mb.get "DIA").getD "5"))
          depth := CixParser.parseFloat (some ((mb.get "DP").getD "0"))
          id := mb.get "ID" }) := by
    unfold CixParser.parseDrillingFromMacros
    rw [List.flatMap_cons, List.flatMap_nil, List.append_nil, if_pos hbv, hN]
    dsimp only
    rw [hmax]
  exact ⟨hstep, by rw [hstep, List.length_map, List.length_range]⟩

/-- A literal `BV` macro with `NRP = 3`, `DX = 50`, `DY = 0` at `(100, 100)`
and diameter 8 (the spec's drilling-repeat scenario). -/
def c7Macro : CixParser.MacroBlock :=
  { macroType := some "BV"
    entries :=
      [("X", "100"), ("Y", "100"), ("DIA", "8"), ("NRP", "3"), ("DX", "50"), ("DY", "0")] }

/-- Witness for C7: the scenario macro expands into three records. -/
theorem claim_C7_witness :
    c7Macro.macroType = some "BV" ∧
    jsParseInt ((c7Macro.get "NRP").getD "1").data = some 3 ∧
    (1 : ℤ) ≤ 3 ∧
    (CixParser.parseDrillingFromMacros 0 [c7Macro]).length = (3 : ℤ).toNat :=
  ⟨rfl, by with_unfolding_all decide, by norm_num,
    (claim_C7_drill_expansion 0 c7Macro 3 rfl (by with_unfolding_all decide) (by norm_num)).2⟩

/-- The kerf stage of an empty routing list yields no kerfs. -/
theorem kerfsUsed_nil (K : GeomKernel) (opts : RecoverOptions) (T : ℚ) :
    kerfsUsed K opts T [] = [] := by
  simp [kerfsUsed]

/-- The fixed-point round trip is exact on coordinates that are integer
multiples of `1 / 1000`. -/
theorem quantize_exact (w : ℚ) (hw : (w * 1000).den = 1) :
    ((jsRound (w * SCALE) : ℤ) : ℚ) / SCALE = w := by
  have h1 : ((w * 1000).num : ℚ) = w * 1000 := Rat.coe_int_num_of_den_eq_one hw
  have h2 : jsRound (w * SCALE) = (w * 1000).num := by
    unfold jsRound SCALE
    rw [← h1, add_comm, Int.floor_add_int]
    norm_num
  rw [h2]
  unfold SCALE
  rw [h1]
  exact mul_div_cancel_right₀ w (by norm_num)

/-- Claim C3 (amended: the fallback panel's polygon carries the fixed-point
rounding of the sheet rectangle — exact whenever width and height are
multiples of 0.001 — and the stated `area = width × height` holds when the
document also has no drill holes, which otherwise reduce the area field):
non-positive sheet dimensions yield the empty panel list, and a positive
sheet with no routing paths and no drilling yields exactly the single
whole-sheet panel. -/
theorem claim_C3_degenerate_inputs :
    (∀ (K : GeomKernel) (tc : TrigTable) (cix : CixData) (opts : RecoverOptions),
      cix.metadata.sheet_width.getD 0 ≤ 0 ∨ cix.metadata.sheet_height.getD 0 ≤ 0 →
      recoverPanelsFromRouting K tc cix opts = []) ∧
    (∀ (K : GeomKernel) (tc : TrigTable) (cix : CixData) (opts : RecoverOptions) (w h : ℚ),
      cix.metadata.sheet_width = some w → cix.metadata.sheet_height = some h →
      0 < w → 0 < h →
      cix.metadata.routing_paths.getD [] = [] →
      cix.metadata.drilling.getD [] = [] →
      recoverPanelsFromRouting K tc cix opts = [wholeSheetPanel w h] ∧
      (wholeSheetPanel w h).area = w * h ∧
      ((w * 1000).den = 1 → (h * 1000).den = 1 →
        (wholeSheetPanel w h).polygon = sheetRect w h)) := by
  constructor
  · intro K tc cix opts hguard
    simp only [recoverPanelsFromRouting]
    rw [if_pos hguard]
  · intro K tc cix opts w h hw hh hw0 hh0 hrouting hdrill
    refine ⟨?_, rfl, ?_⟩
    · simp only [recoverPanelsFromRouting, hw, hh, Option.getD_some, hrouting, hdrill,
        kerfsUsed_nil]
      rw [if_neg (by push_neg; exact ⟨hw0, hh0⟩)]
      simp [attachDrillHolesToPanels]
    · intro hw1 hh1
      have hwq := quantize_exact w hw1
      have hhq := quantize_exact h hh1
      have h0 : jsRound 0 = 0 := by
        unfold jsRound
        norm_num
      simp [wholeSheetPanel, fromPath, toPath, sheetRect, h0, hwq, hhq]

/-- A document whose sheet width `0.0001` is below the fixed-point
resolution. -/
def c3Doc : CixData :=
  { filename := "c3.cix", sheetId := "c3", panels := [], raw_content := "",
    parse_errors := [],
    metadata := { sheet_width := some (1 / 10000), sheet_height := some 1 } }

/-- Counterexample to C3 as stated: sheet `0.0001 × 1` is positive and the
document has no routing paths, yet the returned panel's polygon is not the
sheet rectangle `[0,0]–[width,height]` — the width rounds to 0 in the
fixed-point space. -/
theorem claim_C3_counterexample :
    0 < c3Doc.metadata.sheet_width.getD 0 ∧
    0 < c3Doc.metadata.sheet_height.getD 0 ∧
    c3Doc.metadata.routing_paths.getD [] = [] ∧
    (recoverPanelsFromRouting witnessKernel witnessTrig c3Doc).map (fun p => p.polygon) ≠
      [sheetRect (1 / 10000) 1] := by
  with_unfolding_all decide

/-- A well-quantized document with no routing and no drilling. -/
def c3GoodDoc : CixData :=
  { filename := "c3g.cix", sheetId := "c3g", panels := [], raw_content := "",
    parse_errors := [],
    metadata := { sheet_width := some 100, sheet_height := some 50 } }

/-- Witness for C3 on a `100 × 50` sheet. -/
theorem claim_C3_witness :
    c3GoodDoc.metadata.sheet_width = some 100 ∧
    c3GoodDoc.metadata.sheet_height = some 50 ∧
    (0 : ℚ) < 100 ∧ (0 : ℚ) < 50 ∧
    c3GoodDoc.metadata.routing_paths.getD [] = [] ∧
    c3GoodDoc.metadata.drilling.getD [] = [] ∧
    (recoverPanelsFromRouting witnessKernel witnessTrig c3GoodDoc {} = [wholeSheetPanel 100 50] ∧
      (wholeSheetPanel 100 50).area = 100 * 50 ∧
      (((100 : ℚ) * 1000).den = 1 → ((50 : ℚ) * 1000).den = 1 →
        (wholeSheetPanel 100 50).polygon = sheetRect 100 50)) :=
  ⟨rfl, rfl, by norm_num, by norm_num, rfl, rfl,
    claim_C3_degenerate_inputs.2 witnessKernel witnessTrig c3GoodDoc {} 100 50 rfl rfl
      (by norm_num) (by norm_num) rfl rfl⟩

/-- The per-segment depth record of the specification: the maximum absolute
value of the negative Z coordinates of a point list, 0 when there is none
(the spec's characterization of `max_depth`; compared below against the
parser's accumulated value). -/
def specMaxNegZ (points : List RoutingPoint) : ℚ :=
  points.foldl
    (fun d pt =>
      match pt.z with
      | some z => if z < 0 then max d |z| else d
      | none => d)
    0

theorem specMaxNegZ_append_none (pts : List RoutingPoint) (pt : RoutingPoint)
    (h : pt.z = none) : specMaxNegZ (pts ++ [pt]) = specMaxNegZ pts := by
  unfold specMaxNegZ
  rw [List.foldl_append]
  simp [h]

theorem specMaxNegZ_append_some (pts : List RoutingPoint) (pt : RoutingPoint) (z : ℚ)
    (h : pt.z = some z) :
    specMaxNegZ (pts ++ [pt]) =
      if z < 0 then max (specMaxNegZ pts) |z| else specMaxNegZ pts := by
  unfold specMaxNegZ
  rw [List.foldl_append]
  simp [h]

theorem routParamStep_frame (cur : RoutingPath) (raw : List Char) :
    (CixParser.routParamStep cur raw).points = cur.points ∧
      (CixParser.routParamStep cur raw).max_depth = cur.max_depth ∧
      (CixParser.routParamStep cur raw).id = cur.id := by
  unfold CixParser.routParamStep
  dsimp only
  split
  · split
    · split
      · exact ⟨rfl, rfl, rfl⟩
      · split
        · split
          · exact ⟨rfl, rfl, rfl⟩
          · exact ⟨rfl, rfl, rfl⟩
        · exact ⟨rfl, rfl, rfl⟩
    · exact ⟨rfl, rfl, rfl⟩
  · exact ⟨rfl, rfl, rfl⟩

theorem routParamsFold_pres (taken : List (List Char)) :
    ∀ init : RoutingPath,
      (taken.foldl CixParser.routParamStep init).points = init.points ∧
        (taken.foldl CixParser.routParamStep init).max_depth = init.max_depth := by
  induction taken with
  | nil => intro init; exact ⟨rfl, rfl⟩
  | cons raw rest ih =>
    intro init
    rw [List.foldl_cons]
    obtain ⟨hp, hd, _⟩ := routParamStep_frame init raw
    obtain ⟨hp', hd'⟩ := ih (CixParser.routParamStep init raw)
    exact ⟨hp'.trans hp, hd'.trans hd⟩

theorem routParamsFold_base (taken : List (List Char)) :
    (CixParser.routParamsFold taken).points = [] ∧
      (CixParser.routParamsFold taken).max_depth = 0 := by
  unfold CixParser.routParamsFold
  exact routParamsFold_pres taken _

theorem pushStart_inv (current : Option RoutingPath) (x y : ℚ)
    (hc : ∀ c, current = some c → c.max_depth = specMaxNegZ c.points) :
    ∀ c, CixParser.pushStart current x y = some c → c.max_depth = specMaxNegZ c.points := by
  intro c hcur
  cases current with
  | none => simp [CixParser.pushStart] at hcur
  | some c0 =>
    simp only [CixParser.pushStart, Option.map_some', Option.some_inj] at hcur
    rw [← hcur]
    rw [specMaxNegZ_append_none c0.points _ rfl]
    exact hc c0 rfl

theorem pushDepthPoint_inv (current : Option RoutingPath) (x y ze : ℚ)
    (k : RoutingPointType) (center : Option Vec2)
    (hc : ∀ c, current = some c → c.max_depth = specMaxNegZ c.points) :
    ∀ c, CixParser.pushDepthPoint current x y ze k center = some c →
      c.max_depth = specMaxNegZ c.points := by
  intro c hcur
  cases current with
  | none => simp [CixParser.pushDepthPoint] at hcur
  | some c0 =>
    simp only [CixParser.pushDepthPoint, Option.map_some', Option.some_inj] at hcur
    rw [← hcur]
    rw [specMaxNegZ_append_some c0.points _ ze rfl]
    rw [hc c0 rfl]

/-- Invariant of the routing cursor loop: the current path and every
accumulated path record exactly the maximum absolute negative Z of their
points. -/
theorem routLoop_inv (h : ℚ) :
    ∀ (fuel : ℕ) (lines : List (List Char)) (inRout : Bool)
      (current : Option RoutingPath) (acc : List RoutingPath),
      (∀ c, current = some c → c.max_depth = specMaxNegZ c.points) →
      (∀ p ∈ acc, p.max_depth = specMaxNegZ p.points) →
      ∀ p ∈ CixParser.routLoop h fuel lines inRout current acc,
        p.max_depth = specMaxNegZ p.points := by
  intro fuel
  induction fuel with
  | zero =>
    intro lines inRout current acc hc ha p hp
    simp only [CixParser.routLoop] at hp
    rw [List.mem_reverse] at hp
    exact ha p hp
  | succ n ih =>
    intro lines inRout current acc hc ha p hp
    cases lines with
    | nil =>
      simp only [CixParser.routLoop] at hp
      rw [List.mem_reverse] at hp
      exact ha p hp
    | cons raw rest =>
      simp only [CixParser.routLoop] at hp
      split at hp
      · split at hp
        · -- ROUT header: fresh current
          refine ih _ _ _ _ ?_ ha p hp
          intro c hcur
          obtain rfl := Option.some.inj hcur.symm
          obtain ⟨hpts, hd⟩ := routParamsFold_base (CixParser.spanNotEnd rest)
          rw [hpts, hd]
          rfl
        · exact ih _ _ _ _ hc ha p hp
      · split at hp
        · exact ih _ _ _ _ (pushStart_inv current _ _ hc) ha p hp
        · split at hp
          · exact ih _ _ _ _ (pushDepthPoint_inv current _ _ _ _ _ hc) ha p hp
          · split at hp
            · exact ih _ _ _ _ (pushDepthPoint_inv current _ _ _ _ _ hc) ha p hp
            · split at hp
              · exact ih _ _ _ _ (pushDepthPoint_inv current _ _ _ _ _ hc) ha p hp
              · split at hp
                · -- ENDPATH
                  cases current with
                  | none =>
                    dsimp only at hp
                    exact ih _ _ _ _ (by intro c' h'; cases h') ha p hp
                  | some c =>
                    dsimp only at hp
                    split at hp
                    · exact ih _ _ _ _ (by intro c' h'; cases h') ha p hp
                    · refine ih _ _ _ _ (by intro c' h'; cases h') ?_ p hp
                      intro q hq
                      rcases List.mem_cons.mp hq with hq1 | hq'
                      · rw [hq1]
                        exact hc c rfl
                      · exact ha q hq'
                · exact ih _ _ _ _ hc ha p hp

/-- Claim C5: the derived depth is the maximum over the recorded `max_depth`
and the `PR`, `DP`, `ZE`, `Z` parameters (absolute values of the finite
ones), and the parser's `max_depth` is exactly the maximum absolute
negative Z across the path's parsed segments (0 when there is none). -/
theorem claim_C5_depth_sources :
    (∀ p : RoutingPath,
      pathDepth p =
        max |p.max_depth|
          (max (tryParse (p.params.lookup "PR"))
            (max (tryParse (p.params.lookup "DP"))
              (max (tryParse (p.params.lookup "ZE")) (tryParse (p.params.lookup "Z")))))) ∧
    (∀ (lines : List (List Char)) (h : ℚ),
      ∀ p ∈ CixParser.parseRoutingPaths lines h, p.max_depth = specMaxNegZ p.points) := by
  constructor
  · intro p
    simp only [pathDepth]
    rw [max_assoc, max_assoc, max_assoc]
  · intro lines h p hp
    exact routLoop_inv h (lines.length + 1) lines false none []
      (by intro c h'; cases h') (by intro q hq; cases hq) p hp

/-- A minimal ROUT macro sequence: header with `DIA=6`, a start point, one
line segment plunging to `Z = -18`, and an `ENDPATH`. -/
def c5Lines : List (List Char) :=
  ["BEGIN MACRO".data, "NAME=ROUT".data, "PARAM,NAME=DIA,VALUE=6".data, "END MACRO".data,
   "BEGIN MACRO".data, "NAME=START_POINT".data, "PARAM,NAME=X,VALUE=0".data,
   "PARAM,NAME=Y,VALUE=0".data, "END MACRO".data,
   "BEGIN MACRO".data, "NAME=LINE_EP".data, "PARAM,NAME=XE,VALUE=100".data,
   "PARAM,NAME=YE,VALUE=0".data, "PARAM,NAME=ZE,VALUE=-18".data, "END MACRO".data,
   "BEGIN MACRO".data, "NAME=ENDPATH".data, "END MACRO".data]

/-- The routing path the scanner produces from `c5Lines` at sheet height 0. -/
def c5Path : RoutingPath :=
  { id := none
    points :=
      [{ x := 0, y := 0, ptype := .start },
       { x := 100, y := 0, z := some (-18), ptype := .line }]
    params := [("DIA", "6")]
    max_depth := 18
    diameter := some 6 }

set_option maxRecDepth 6000 in
/-- Witness for C5: the parsed plunge path records depth 18, the maximum
absolute negative Z of its segments. -/
theorem claim_C5_witness :
    c5Path ∈ CixParser.parseRoutingPaths c5Lines 0 ∧
      c5Path.max_depth = specMaxNegZ c5Path.points :=
  ⟨by with_unfolding_all decide,
    claim_C5_depth_sources.2 c5Lines 0 c5Path (by with_unfolding_all decide)⟩

/-- Claim C6: under the guards of the main recovery path (positive sheet,
kerfs produced, surviving panels, at least one label point), the returned
list is the surviving panels filtered to those whose outer ring minus holes
contains some label point — unless that filter eliminates everything, in
which case all surviving panels are returned. -/
theorem claim_C6_label_filter (K : GeomKernel) (tc : TrigTable) (cix : CixData)
    (opts : RecoverOptions)
    (hW : 0 < cix.metadata.sheet_width.getD 0)
    (hH : 0 < cix.metadata.sheet_height.getD 0)
    (hkerfs : (kerfsUsed K opts (cix.metadata.sheet_thickness.getD 0)
        (cix.metadata.routing_paths.getD [])).isEmpty = false)
    (hpanels : (attachDrillHolesToPanels tc (recoverCandidates K opts cix)
        (cix.metadata.drilling.getD [])).isEmpty = false)
    (hlab : (labelPointsOf cix).isEmpty = false) :
    recoverPanelsFromRouting K tc cix opts =
      (if ((attachDrillHolesToPanels tc (recoverCandidates K opts cix)
            (cix.metadata.drilling.getD [])).filter (fun panel =>
              (labelPointsOf cix).any (fun pt =>
                pointInPolygonWithHoles { x := pt.x, y := pt.y } panel.polygon
                  (panel.holes.getD [])))).isEmpty
       then attachDrillHolesToPanels tc (recoverCandidates K opts cix)
          (cix.metadata.drilling.getD [])
       else (attachDrillHolesToPanels tc (recoverCandidates K opts cix)
          (cix.metadata.drilling.getD [])).filter (fun panel =>
            (labelPointsOf cix).any (fun pt =>
              pointInPolygonWithHoles { x := pt.x, y := pt.y } panel.polygon
                (panel.holes.getD [])))) := by
  simp only [recoverPanelsFromRouting]
  rw [if_neg (by push_neg; exact ⟨hW, hH⟩)]
  rw [if_neg (by rw [hkerfs]; simp)]
  rw [if_neg (by rw [hpanels]; simp)]
  rw [hlab]
  simp only [Bool.false_eq_true, if_false]

set_option maxRecDepth 8000 in
/-- Witness for C6 on a document with one through-cut path, one drill hole,
and one label point inside the single surviving panel. -/
theorem claim_C6_witness :
    0 < witnessDoc.metadata.sheet_width.getD 0 ∧
    0 < witnessDoc.metadata.sheet_height.getD 0 ∧
    (kerfsUsed witnessKernel {} (witnessDoc.metadata.sheet_thickness.getD 0)
      (witnessDoc.metadata.routing_paths.getD [])).isEmpty = false ∧
    (attachDrillHolesToPanels witnessTrig (recoverCandidates witnessKernel {} witnessDoc)
      (witnessDoc.metadata.drilling.getD [])).isEmpty = false ∧
    (labelPointsOf witnessDoc).isEmpty = false ∧
    recoverPanelsFromRouting witnessKernel witnessTrig witnessDoc {} =
      (if ((attachDrillHolesToPanels witnessTrig (recoverCandidates witnessKernel {} witnessDoc)
            (witnessDoc.metadata.drilling.getD [])).filter (fun panel =>
              (labelPointsOf witnessDoc).any (fun pt =>
                pointInPolygonWithHoles { x := pt.x, y := pt.y } panel.polygon
                  (panel.holes.getD [])))).isEmpty
       then attachDrillHolesToPanels witnessTrig (recoverCandidates witnessKernel {} witnessDoc)
          (witnessDoc.metadata.drilling.getD [])
       else (attachDrillHolesToPanels witnessTrig (recoverCandidates witnessKernel {} witnessDoc)
          (witnessDoc.metadata.drilling.getD [])).filter (fun panel =>
            (labelPointsOf witnessDoc).any (fun pt =>
              pointInPolygonWithHoles { x := pt.x, y := pt.y } panel.polygon
                (panel.holes.getD [])))) :=
  ⟨by with_unfolding_all decide, by with_unfolding_all decide,
    by with_unfolding_all decide, by with_unfolding_all decide,
    by with_unfolding_all decide,
    claim_C6_label_filter witnessKernel witnessTrig witnessDoc {}
      (by with_unfolding_all decide) (by with_unfolding_all decide)
      (by with_unfolding_all decide) (by with_unfolding_all decide)
      (by with_unfolding_all decide)⟩

/-- The recovery result is empty, the (attached) whole-sheet fallback, or a
sublist of the attached surviving panels. -/
theorem recover_result_cases (K : GeomKernel) (tc : TrigTable) (cix : CixData)
    (opts : RecoverOptions) :
    recoverPanelsFromRouting K tc cix opts = [] ∨
    recoverPanelsFromRouting K tc cix opts =
      attachDrillHolesToPanels tc
        [wholeSheetPanel (cix.metadata.sheet_width.getD 0) (cix.metadata.sheet_height.getD 0)]
        (cix.metadata.drilling.getD []) ∨
    (recoverPanelsFromRouting K tc cix opts).Sublist
      (attachDrillHolesToPanels tc (recoverCandidates K opts cix)
        (cix.metadata.drilling.getD [])) := by
  simp only [recoverPanelsFromRouting]
  split
  · exact Or.inl rfl
  · split
    · exact Or.inr (Or.inl rfl)
    · split
      · exact Or.inr (Or.inl rfl)
      · refine Or.inr (Or.inr ?_)
        split
        · exact List.Sublist.refl _
        · split
          · exact List.Sublist.refl _
          · exact List.filter_sublist _

/-- Exclusivity and qualification of claimed drill holes over the attached
surviving panels. -/
theorem attach_main_exclusive (K : GeomKernel) (tc : TrigTable) (cix : CixData)
    (opts : RecoverOptions)
    (hdisj : (recoverCandidates K opts cix).Pairwise (fun p q =>
      ∀ d ∈ cix.metadata.drilling.getD [],
        ¬(pointInPolygon { x := d.x, y := d.y } p.polygon = true ∧
          pointInPolygon { x := d.x, y := d.y } q.polygon = true))) :
    (attachDrillHolesToPanels tc (recoverCandidates K opts cix)
        (cix.metadata.drilling.getD [])).Pairwise (fun p q =>
      ∀ d : DrillHole, ¬(d ∈ p.drillHoles.getD [] ∧ d ∈ q.drillHoles.getD [])) ∧
    ∀ p ∈ attachDrillHolesToPanels tc (recoverCandidates K opts cix)
        (cix.metadata.drilling.getD []),
      ∀ d ∈ p.drillHoles.getD [],
        d ∈ cix.metadata.drilling.getD [] ∧
          pointInPolygon { x := d.x, y := d.y } p.polygon = true := by
  constructor
  · unfold attachDrillHolesToPanels
    split
    · refine hdisj.imp_of_mem ?_
      intro p q hp _ _ d hd
      rw [recoverCandidates_drillHoles_none K opts cix p hp] at hd
      simp at hd
    · rw [List.pairwise_map]
      refine hdisj.imp_of_mem ?_
      intro p q hp hq hR d hd
      rw [attachOne_claimed_iff tc _ p (recoverCandidates_drillHoles_none K opts cix p hp)] at hd
      rw [attachOne_claimed_iff tc _ q (recoverCandidates_drillHoles_none K opts cix q hq)] at hd
      exact hR d hd.1.1
        ⟨drillQualifies_pip tc p d hd.1.2, drillQualifies_pip tc q d hd.2.2⟩
  · intro p hp d hd
    rcases mem_attach_cases _ _ _ _ hp with hp' | ⟨q, hq, rfl⟩
    · rw [recoverCandidates_drillHoles_none K opts cix p hp'] at hd
      simp at hd
    · rw [attachOne_claimed_iff tc _ q (recoverCandidates_drillHoles_none K opts cix q hq)] at hd
      rw [attachOne_polygon]
      exact ⟨hd.1, drillQualifies_pip tc q d hd.2⟩

/-- Claim C1: provided the surviving pieces are pairwise disjoint at the
drill centers — the structural invariant the boolean-difference stage
provides and the source does not re-validate — one recovery call claims
each drill hole for at most one returned panel, and every claimed hole's
center lies inside (only) that panel's outer ring. -/
theorem claim_C1_drill_exclusivity (K : GeomKernel) (tc : TrigTable) (cix : CixData)
    (opts : RecoverOptions)
    (hdisj : (recoverCandidates K opts cix).Pairwise (fun p q =>
      ∀ d ∈ cix.metadata.drilling.getD [],
        ¬(pointInPolygon { x := d.x, y := d.y } p.polygon = true ∧
          pointInPolygon { x := d.x, y := d.y } q.polygon = true))) :
    (recoverPanelsFromRouting K tc cix opts).Pairwise (fun p q =>
      ∀ d : DrillHole, ¬(d ∈ p.drillHoles.getD [] ∧ d ∈ q.drillHoles.getD [])) ∧
    ∀ p ∈ recoverPanelsFromRouting K tc cix opts, ∀ d ∈ p.drillHoles.getD [],
      d ∈ cix.metadata.drilling.getD [] ∧
        pointInPolygon { x := d.x, y := d.y } p.polygon = true := by
  obtain ⟨hPW, hP2⟩ := attach_main_exclusive K tc cix opts hdisj
  have hsheet2 : ∀ p ∈ attachDrillHolesToPanels tc
      [wholeSheetPanel (cix.metadata.sheet_width.getD 0) (cix.metadata.sheet_height.getD 0)]
      (cix.metadata.drilling.getD []),
      ∀ d ∈ p.drillHoles.getD [],
        d ∈ cix.metadata.drilling.getD [] ∧
          pointInPolygon { x := d.x, y := d.y } p.polygon = true := by
    intro p hp d hd
    rcases mem_attach_cases _ _ _ _ hp with hp' | ⟨q, hq, rfl⟩
    · rw [List.mem_singleton] at hp'
      rw [hp'] at hd
      simp [wholeSheetPanel] at hd
    · rw [List.mem_singleton] at hq
      subst hq
      rw [attachOne_claimed_iff tc _ _ (by simp [wholeSheetPanel])] at hd
      rw [attachOne_polygon]
      exact ⟨hd.1, drillQualifies_pip tc _ d hd.2⟩
  have hsheetPW : (attachDrillHolesToPanels tc
      [wholeSheetPanel (cix.metadata.sheet_width.getD 0) (cix.metadata.sheet_height.getD 0)]
      (cix.metadata.drilling.getD [])).Pairwise (fun p q =>
      ∀ d : DrillHole, ¬(d ∈ p.drillHoles.getD [] ∧ d ∈ q.drillHoles.getD [])) := by
    unfold attachDrillHolesToPanels
    split
    · exact List.pairwise_singleton _ _
    · simp only [List.map_cons, List.map_nil]
      exact List.pairwise_singleton _ _
  rcases recover_result_cases K tc cix opts with h0 | hs | hsub
  · rw [h0]
    exact ⟨List.Pairwise.nil, by intro p hp; simp at hp⟩
  · rw [hs]
    exact ⟨hsheetPW, hsheet2⟩
  · refine ⟨hPW.sublist hsub, ?_⟩
    intro p hp
    exact hP2 p (hsub.subset hp)

/-- A document with one drill hole and no routing paths. -/
def c1Doc : CixData :=
  { filename := "c1.cix", sheetId := "c1", panels := [], raw_content := "",
    parse_errors := [],
    metadata :=
      { sheet_width := some 100, sheet_height := some 100, sheet_thickness := some 18,
        drilling := some [{ x := 50, y := 50, diameter := 10, depth := 18 }] } }

/-- Witness for C1: with no routing paths the surviving-piece list is empty,
so the disjointness hypothesis holds trivially, and the claim applies to the
whole-sheet fallback panel that claims the document's drill hole. -/
theorem claim_C1_witness :
    (recoverCandidates witnessKernel {} c1Doc).Pairwise (fun p q =>
      ∀ d ∈ c1Doc.metadata.drilling.getD [],
        ¬(pointInPolygon { x := d.x, y := d.y } p.polygon = true ∧
          pointInPolygon { x := d.x, y := d.y } q.polygon = true)) ∧
    ((recoverPanelsFromRouting witnessKernel witnessTrig c1Doc {}).Pairwise (fun p q =>
      ∀ d : DrillHole, ¬(d ∈ p.drillHoles.getD [] ∧ d ∈ q.drillHoles.getD [])) ∧
    ∀ p ∈ recoverPanelsFromRouting witnessKernel witnessTrig c1Doc {},
      ∀ d ∈ p.drillHoles.getD [],
        d ∈ c1Doc.metadata.drilling.getD [] ∧
          pointInPolygon { x := d.x, y := d.y } p.polygon = true) :=
  ⟨by
    rw [show recoverCandidates witnessKernel {} c1Doc = [] from by with_unfolding_all decide]
    exact List.Pairwise.nil,
   claim_C1_drill_exclusivity witnessKernel witnessTrig c1Doc {}
    (by
      rw [show recoverCandidates witnessKernel {} c1Doc = [] from by with_unfolding_all decide]
      exact List.Pairwise.nil)⟩






